import Mathlib

/-!
# Verification of the TN-Forest KML grid generator core

This file is a shallow embedding of the grid-generation core of
`streamlit_app.py` (`utm_crs_for_lonlat` and `make_grid_exact_clipped`),
together with theorems settling the frozen claims about it.

Modelling conventions:

* Python floats are idealised as real numbers (`ℝ`); Python `int(x)` is
  truncation toward zero, `math.ceil` is `Int.ceil`.
* A shapely geometry is modelled as the set of plane points it occupies
  (`Set Pt` with `Pt := ℝ × ℝ`); `shapely.geometry.box` is a closed
  axis-aligned rectangle, `unary_union` is set union, `.intersects` is
  non-disjointness, `.intersection` is set intersection, and `.is_empty`
  is emptiness of the point set.
* The external collaborators (shapely's centroid and pyproj's coordinate
  transformations, reached through `geopandas.to_crs`) are parameters of
  the embedding, collected in a `GeoContext`; theorems hold for every
  context, and concrete contexts instantiate them for witnesses and
  counterexamples.
* The source has no `try`/`except` and defines no error classes; the only
  failure paths are untyped exceptions raised inside Python library calls
  when a NaN or infinite float reaches an integer conversion.  These are
  modelled by `PyErr.floatIntError`.
-/

open Set MeasureTheory

/-- A point of the plane: an (x, y) coordinate pair of Python floats,
idealised as reals.  For geographic (EPSG:4326) geometries the first
coordinate is the longitude and the second the latitude. -/
abbrev Pt : Type := ℝ × ℝ

/-- `shapely.geometry.box(minx, miny, maxx, maxy)`: the closed axis-aligned
rectangle with those corners. -/
def box (minx miny maxx maxy : ℝ) : Set Pt :=
  Set.Icc minx maxx ×ˢ Set.Icc miny maxy

/-- `shapely.ops.unary_union` applied to a sequence of geometries: the union
of their point sets (the union of no geometries is the empty geometry). -/
def unary_union (l : List (Set Pt)) : Set Pt :=
  l.foldr (fun s t => s ∪ t) ∅

/-- Python `int(x)` applied to a float: truncation toward zero. -/
noncomputable def pyInt (x : ℝ) : ℤ :=
  if 0 ≤ x then ⌊x⌋ else ⌈x⌉

/-- `utm_crs_for_lonlat(lon, lat)` from the source:
`zone = int((lon + 180) / 6) + 1`;
`epsg = 32600 + zone if lat >= 0 else 32700 + zone`.
`CRS.from_epsg(epsg)` is modelled by the EPSG code itself. -/
noncomputable def utm_crs_for_lonlat (lon lat : ℝ) : ℤ :=
  let zone := pyInt ((lon + 180) / 6) + 1
  if 0 ≤ lat then 32600 + zone else 32700 + zone

/-- Modelled from the spec's words (for comparison with the source function
`utm_crs_for_lonlat`): "zone = floor((lon + 180) / 6) + 1, clamped to the
valid range [1,60]; EPSG code = 32600 + zone if latitude ≥ 0 (Northern
Hemisphere UTM), else 32700 + zone (Southern Hemisphere UTM)". -/
noncomputable def spec_select_projection (lon lat : ℝ) : ℤ :=
  let zone := max 1 (min 60 (⌊(lon + 180) / 6⌋ + 1))
  if 0 ≤ lat then 32600 + zone else 32700 + zone



/-- The untyped Python exceptions the core can propagate.  The source defines
no error classes of its own (no `EmptyInputError`, no `InvalidInputError`)
and has no `try`/`except`; its only failure paths raise library exceptions
when a NaN or infinite float reaches `int()`/`math.ceil()`:

* centroid of an empty union is `POINT EMPTY`, whose coordinates read as
  NaN, and `int(NaN)` inside `utm_crs_for_lonlat` raises;
* a zero cell size makes `(maxx - minx) / cell_size_m` infinite or NaN and
  `math.ceil` of that raises. -/
inductive PyErr : Type
  | floatIntError : PyErr
deriving DecidableEq

/-- The external geometry collaborators of the core, as parameters of the
embedding: shapely's `.centroid` (with `none` modelling `POINT EMPTY`, the
centroid of an empty geometry) and pyproj's forward/backward coordinate
transformations for a given EPSG code, reached through `geopandas.to_crs`. -/
structure GeoContext : Type where
  centroid : Set Pt → Option Pt
  proj : ℤ → Pt → Pt
  unproj : ℤ → Pt → Pt
  centroid_empty : centroid ∅ = none
  centroid_nonempty : ∀ s : Set Pt, s.Nonempty → ∃ p, centroid s = some p

/-- The four values of `GeoSeries.total_bounds`. -/
structure Bounds : Type where
  minx : ℝ
  miny : ℝ
  maxx : ℝ
  maxy : ℝ

/-- `merged_utm.total_bounds`: the axis-aligned bounding box
`(minx, miny, maxx, maxy)` of a geometry, as coordinatewise infima and
suprema of its point set. -/
noncomputable def total_bounds (s : Set Pt) : Bounds where
  minx := sInf (Prod.fst '' s)
  miny := sInf (Prod.snd '' s)
  maxx := sSup (Prod.fst '' s)
  maxy := sSup (Prod.snd '' s)

/-- The lattice square of the loop body:
`x0, y0 = minx + i * cell_size_m, miny + j * cell_size_m`;
`cell = box(x0, y0, x0 + cell_size_m, y0 + cell_size_m)`. -/
noncomputable def latticeSquare (minx miny cell : ℝ) (i j : ℕ) : Set Pt :=
  box (minx + i * cell) (miny + j * cell)
    (minx + i * cell + cell) (miny + j * cell + cell)

open Classical in
/-- The clipping loop of `make_grid_exact_clipped`: for `i in range(cols)`,
`j in range(rows)`, if `aoi_union.intersects(cell)` then
`inter = cell.intersection(aoi_union)` and, if `not inter.is_empty`,
`inter` is appended. -/
noncomputable def gridCells (aoi : Set Pt) (minx miny cell : ℝ) (cols rows : ℕ) :
    List (Set Pt) :=
  (List.range cols).flatMap fun i =>
    (List.range rows).filterMap fun j =>
      let c := latticeSquare minx miny cell i j
      if ¬ Disjoint aoi c then
        let inter := c ∩ aoi
        if inter.Nonempty then some inter else none
      else none

open Classical in
/-- The lattice positions `(i, j)` at which the loop of
`make_grid_exact_clipped` emits a cell, in iteration order. -/
noncomputable def emittedPositions (aoi : Set Pt) (minx miny cell : ℝ)
    (cols rows : ℕ) : List (ℕ × ℕ) :=
  (List.range cols).flatMap fun i =>
    (List.range rows).filterMap fun j =>
      if ¬ Disjoint aoi (latticeSquare minx miny cell i j) ∧
          (latticeSquare minx miny cell i j ∩ aoi).Nonempty
      then some (i, j) else none

/-- `merged_utm = gpd.GeoSeries([merged_ll], crs=4326).to_crs(utm)`: the
merged input union carried into the planar CRS chosen from the centroid
`c`, i.e. the image of the union under the forward projection. -/
noncomputable def merged_utm (ctx : GeoContext) (polys : List (Set Pt))
    (c : Pt) : Set Pt :=
  ctx.proj (utm_crs_for_lonlat c.1 c.2) '' unary_union polys

/-- `cols = int(math.ceil((maxx - minx) / cell_size_m))`; `range` of a
negative count iterates zero times, hence `Int.toNat`. -/
noncomputable def gridCols (M : Set Pt) (cell : ℝ) : ℕ :=
  (⌈((total_bounds M).maxx - (total_bounds M).minx) / cell⌉).toNat

/-- `rows = int(math.ceil((maxy - miny) / cell_size_m))`. -/
noncomputable def gridRows (M : Set Pt) (cell : ℝ) : ℕ :=
  (⌈((total_bounds M).maxy - (total_bounds M).miny) / cell⌉).toNat

/-- `make_grid_exact_clipped(polygons_ll, cell_size_m)` from the source,
over a geometry context:

```
merged_ll = unary_union(polygons_ll)
centroid = merged_ll.centroid
utm = utm_crs_for_lonlat(centroid.x, centroid.y)
merged_utm = gpd.GeoSeries([merged_ll], crs=4326).to_crs(utm)
minx, miny, maxx, maxy = merged_utm.total_bounds
cols = int(math.ceil((maxx - minx) / cell_size_m))
rows = int(math.ceil((maxy - miny) / cell_size_m))
[clipping loop over range(cols) x range(rows)]
cells_ll = [gpd.GeoSeries([geom], crs=utm).to_crs(4326).iloc[0] for geom in cells]
return cells_ll, merged_ll
```

`aoi_union = merged_utm.unary_union` is `merged_utm` itself (the union of a
one-element series).  `int(math.ceil(q))` is `⌈q⌉`; `range` of a negative
count is empty, hence `Int.toNat`.  An empty merged geometry gives a
`POINT EMPTY` centroid whose NaN coordinate raises in `int()`; a zero cell
size gives an infinite or NaN quotient that raises in `math.ceil` — both
modelled by `PyErr.floatIntError`. -/
noncomputable def make_grid_exact_clipped (ctx : GeoContext)
    (polygons_ll : List (Set Pt)) (cell_size_m : ℝ) :
    Except PyErr (List (Set Pt) × Set Pt) :=
  let merged_ll := unary_union polygons_ll
  match ctx.centroid merged_ll with
  | none => .error .floatIntError
  | some centroid =>
      let M := merged_utm ctx polygons_ll centroid
      if cell_size_m = 0 then .error .floatIntError
      else
        let cells := gridCells M (total_bounds M).minx (total_bounds M).miny
          cell_size_m (gridCols M cell_size_m) (gridRows M cell_size_m)
        let cells_ll := cells.map fun geom =>
          ctx.unproj (utm_crs_for_lonlat centroid.1 centroid.2) '' geom
        .ok (cells_ll, merged_ll)


/-- The strict column-major / row-minor (lexicographic) order on lattice
positions. -/
def posLt (p q : ℕ × ℕ) : Prop :=
  p.1 < q.1 ∨ (p.1 = q.1 ∧ p.2 < q.2)

open Classical in
/-- A concrete geometry context used to instantiate the theorems: the
centroid of any non-empty geometry is reported as the origin and both
coordinate transformations are the identity. -/
noncomputable def ctx0 : GeoContext where
  centroid := fun s => if s.Nonempty then some (0, 0) else none
  proj := fun _ p => p
  unproj := fun _ p => p
  centroid_empty := by simp
  centroid_nonempty := fun s hs => ⟨(0, 0), if_pos hs⟩

/-- The merged planar region of the single-box instance. -/
noncomputable def M0 : Set Pt := merged_utm ctx0 [box 0 0 10 10] (0, 0)

lemma pyInt_of_nonneg {x : ℝ} (h : 0 ≤ x) : pyInt x = ⌊x⌋ := if_pos h

lemma utm_zone_bounds {lon : ℝ} (h1 : -180 ≤ lon) (h2 : lon < 180) :
    1 ≤ pyInt ((lon + 180) / 6) + 1 ∧ pyInt ((lon + 180) / 6) + 1 ≤ 60 := by
  have hx : (0 : ℝ) ≤ (lon + 180) / 6 := by linarith
  rw [pyInt_of_nonneg hx]
  have hfl : (0 : ℤ) ≤ ⌊(lon + 180) / 6⌋ := Int.floor_nonneg.mpr hx
  have hfu : ⌊(lon + 180) / 6⌋ < 60 := by
    rw [Int.floor_lt]
    push_cast
    linarith
  omega

/-- On `-180 ≤ lon < 180` the truncation in the source agrees with the
clamped floor formula of the spec (the clamp is inactive there). -/
lemma utm_eq_spec_of_lt {lon lat : ℝ} (h1 : -180 ≤ lon) (h2 : lon < 180) :
    utm_crs_for_lonlat lon lat = spec_select_projection lon lat := by
  have hx : (0 : ℝ) ≤ (lon + 180) / 6 := by linarith
  have hb := utm_zone_bounds h1 h2
  rw [pyInt_of_nonneg hx] at hb
  unfold utm_crs_for_lonlat spec_select_projection
  rw [pyInt_of_nonneg hx]
  have hmin : min 60 (⌊(lon + 180) / 6⌋ + 1) = ⌊(lon + 180) / 6⌋ + 1 :=
    min_eq_right (by omega)
  have hmax : max 1 (⌊(lon + 180) / 6⌋ + 1) = ⌊(lon + 180) / 6⌋ + 1 :=
    max_eq_right (by omega)
  rw [hmin, hmax]

lemma floor_div_eval {x y : ℝ} {n : ℤ} (hy : 0 < y) (h1 : (n : ℝ) * y ≤ x)
    (h2 : x < (n + 1 : ℤ) * y) : ⌊x / y⌋ = n := by
  rw [Int.floor_eq_iff]
  constructor
  · rw [le_div_iff₀ hy]
    exact h1
  · rw [div_lt_iff₀ hy]
    push_cast at h2 ⊢
    linarith

lemma utm_at_0_0 : utm_crs_for_lonlat 0 0 = 32631 := by
  unfold utm_crs_for_lonlat
  rw [if_pos le_rfl, pyInt_of_nonneg (by norm_num)]
  have : ⌊(0 + 180 : ℝ) / 6⌋ = 30 := floor_div_eval (by norm_num) (by norm_num) (by norm_num)
  rw [this]
  norm_num

lemma utm_at_neg : utm_crs_for_lonlat (-1/10000) (-1) = 32730 := by
  unfold utm_crs_for_lonlat
  rw [if_neg (by norm_num), pyInt_of_nonneg (by norm_num)]
  have : ⌊(-1/10000 + 180 : ℝ) / 6⌋ = 29 :=
    floor_div_eval (by norm_num) (by norm_num) (by norm_num)
  rw [this]
  norm_num

lemma utm_at_102_13 : utm_crs_for_lonlat 102 13 = 32648 := by
  unfold utm_crs_for_lonlat
  rw [if_pos (by norm_num), pyInt_of_nonneg (by norm_num)]
  have : ⌊(102 + 180 : ℝ) / 6⌋ = 47 := floor_div_eval (by norm_num) (by norm_num) (by norm_num)
  rw [this]
  norm_num

lemma utm_at_180 {lat : ℝ} :
    utm_crs_for_lonlat 180 lat = 32661 ∨ utm_crs_for_lonlat 180 lat = 32761 := by
  unfold utm_crs_for_lonlat
  have h : ⌊(180 + 180 : ℝ) / 6⌋ = 60 := floor_div_eval (by norm_num) (by norm_num) (by norm_num)
  rw [pyInt_of_nonneg (by norm_num), h]
  by_cases hl : 0 ≤ lat
  · left; rw [if_pos hl]; norm_num
  · right; rw [if_neg hl]; norm_num

/-- C1 (counterexample): at longitude 180 (inside the claim's domain
`[-180, 180]`) and latitude 0, the source function returns EPSG:32661,
while the claimed clamped formula gives EPSG:32660 — the source applies no
clamp to the zone. -/
theorem utm_clamp_counterexample :
    utm_crs_for_lonlat 180 0 = 32661 ∧ spec_select_projection 180 0 = 32660 ∧
      utm_crs_for_lonlat 180 0 ≠ spec_select_projection 180 0 := by
  have hfl : ⌊(180 + 180 : ℝ) / 6⌋ = 60 :=
    floor_div_eval (by norm_num) (by norm_num) (by norm_num)
  have hcode : utm_crs_for_lonlat 180 0 = 32661 := by
    unfold utm_crs_for_lonlat
    rw [if_pos le_rfl, pyInt_of_nonneg (by norm_num), hfl]
    norm_num
  have hspec : spec_select_projection 180 0 = 32660 := by
    unfold spec_select_projection
    rw [if_pos le_rfl, hfl]
    norm_num
  refine ⟨hcode, hspec, ?_⟩
  rw [hcode, hspec]
  decide

/-- C1 (amended): for every longitude in `[-180, 180)` (not `[-180, 180]`:
at longitude exactly 180 the code produces the unclamped zone 61) and every
latitude, the source function agrees with the spec's clamped formula — the
clamp being inactive on that domain — and the three quoted sample
evaluations hold. -/
theorem utm_matches_spec_formula :
    (∀ lon lat : ℝ, -180 ≤ lon → lon < 180 →
        utm_crs_for_lonlat lon lat = spec_select_projection lon lat) ∧
      utm_crs_for_lonlat 0 0 = 32631 ∧
      utm_crs_for_lonlat (-1/10000) (-1) = 32730 ∧
      utm_crs_for_lonlat 102 13 = 32648 := by
  exact ⟨fun lon lat h1 h2 => utm_eq_spec_of_lt h1 h2, utm_at_0_0, utm_at_neg, utm_at_102_13⟩

/-- Witness for `utm_matches_spec_formula` at the concrete longitude 102,
latitude 13. -/
theorem utm_matches_spec_formula_witness :
    utm_crs_for_lonlat 102 13 = spec_select_projection 102 13 :=
  utm_matches_spec_formula.1 102 13 (by norm_num) (by norm_num)

/-- C9: for every longitude in `[-180, 180)` and every latitude, the zone
computed by `utm_crs_for_lonlat` lies in `[1, 60]` with no clamping, so the
returned EPSG code lies in the valid UTM ranges 32601–32660 (north) or
32701–32760 (south); at longitude exactly 180 the code instead returns
32661 or 32761, outside those ranges. -/
theorem utm_zone_valid :
    (∀ lon lat : ℝ, -180 ≤ lon → lon < 180 →
        1 ≤ pyInt ((lon + 180) / 6) + 1 ∧ pyInt ((lon + 180) / 6) + 1 ≤ 60 ∧
          ((32601 ≤ utm_crs_for_lonlat lon lat ∧ utm_crs_for_lonlat lon lat ≤ 32660) ∨
            (32701 ≤ utm_crs_for_lonlat lon lat ∧ utm_crs_for_lonlat lon lat ≤ 32760))) ∧
      ∀ lat : ℝ, utm_crs_for_lonlat 180 lat = 32661 ∨ utm_crs_for_lonlat 180 lat = 32761 := by
  constructor
  · intro lon lat h1 h2
    obtain ⟨hz1, hz2⟩ := utm_zone_bounds h1 h2
    refine ⟨hz1, hz2, ?_⟩
    unfold utm_crs_for_lonlat
    by_cases hl : 0 ≤ lat
    · left; rw [if_pos hl]; omega
    · right; rw [if_neg hl]; omega
  · intro lat
    exact utm_at_180

/-- Witness for `utm_zone_valid` at longitude 179, latitude −1 (zone 60,
southern hemisphere: the largest valid southern code). -/
theorem utm_zone_valid_witness :
    1 ≤ pyInt ((179 + 180 : ℝ) / 6) + 1 ∧ pyInt ((179 + 180 : ℝ) / 6) + 1 ≤ 60 ∧
      ((32601 ≤ utm_crs_for_lonlat 179 (-1) ∧ utm_crs_for_lonlat 179 (-1) ≤ 32660) ∨
        (32701 ≤ utm_crs_for_lonlat 179 (-1) ∧ utm_crs_for_lonlat 179 (-1) ≤ 32760)) :=
  utm_zone_valid.1 179 (-1) (by norm_num) (by norm_num)
/-- Unfolding equation for `make_grid_exact_clipped` on the success path. -/
lemma make_grid_ok (ctx : GeoContext) (polys : List (Set Pt)) (cell : ℝ)
    (c : Pt) (hc : ctx.centroid (unary_union polys) = some c)
    (hcell : cell ≠ 0) :
    make_grid_exact_clipped ctx polys cell =
      .ok
        ((gridCells (merged_utm ctx polys c)
              (total_bounds (merged_utm ctx polys c)).minx
              (total_bounds (merged_utm ctx polys c)).miny
              cell
              (gridCols (merged_utm ctx polys c) cell)
              (gridRows (merged_utm ctx polys c) cell)).map
            (fun geom => ctx.unproj (utm_crs_for_lonlat c.1 c.2) '' geom),
          unary_union polys) := by
  simp [make_grid_exact_clipped, hc, hcell]

/-- Inversion: a successful run pins down the centroid, a nonzero cell size
and the shape of the result. -/
lemma make_grid_ok_inv (ctx : GeoContext) (polys : List (Set Pt)) (cell : ℝ)
    (res : List (Set Pt) × Set Pt)
    (h : make_grid_exact_clipped ctx polys cell = .ok res) :
    ∃ c : Pt, ctx.centroid (unary_union polys) = some c ∧ cell ≠ 0 ∧
      make_grid_exact_clipped ctx polys cell = .ok res := by
  rcases hc : ctx.centroid (unary_union polys) with _ | c
  · exfalso
    simp only [make_grid_exact_clipped, hc] at h
    exact Except.noConfusion h
  · refine ⟨c, rfl, ?_, h⟩
    intro hcell
    simp [make_grid_exact_clipped, hc, hcell] at h

/-- The two loop guards coincide: `aoi_union.intersects(cell)` succeeds
exactly when the clipped intersection is non-empty (closed point sets). -/
lemma not_disjoint_iff_clip_nonempty (aoi c : Set Pt) :
    ¬ Disjoint aoi c ↔ (c ∩ aoi).Nonempty := by
  rw [Set.not_disjoint_iff_nonempty_inter, Set.inter_comm]

/-- Membership in the output of the clipping loop. -/
lemma mem_gridCells {aoi : Set Pt} {minx miny cell : ℝ} {cols rows : ℕ}
    {g : Set Pt} :
    g ∈ gridCells aoi minx miny cell cols rows ↔
      ∃ i, i < cols ∧ ∃ j, j < rows ∧
        (latticeSquare minx miny cell i j ∩ aoi).Nonempty ∧
        g = latticeSquare minx miny cell i j ∩ aoi := by
  unfold gridCells
  simp only [List.mem_flatMap, List.mem_filterMap, List.mem_range]
  constructor
  · rintro ⟨i, hi, j, hj, hopt⟩
    refine ⟨i, hi, j, hj, ?_⟩
    by_cases h1 : ¬ Disjoint aoi (latticeSquare minx miny cell i j)
    · rw [if_pos h1] at hopt
      by_cases h2 : (latticeSquare minx miny cell i j ∩ aoi).Nonempty
      · rw [if_pos h2] at hopt
        exact ⟨h2, (Option.some_injective _ hopt).symm⟩
      · rw [if_neg h2] at hopt
        exact absurd hopt (Option.noConfusion)
    · rw [if_neg h1] at hopt
      exact absurd hopt (Option.noConfusion)
  · rintro ⟨i, hi, j, hj, hne, rfl⟩
    refine ⟨i, hi, j, hj, ?_⟩
    rw [if_pos ((not_disjoint_iff_clip_nonempty _ _).mpr hne), if_pos hne]

/-- Membership among the emitted lattice positions. -/
lemma mem_emittedPositions {aoi : Set Pt} {minx miny cell : ℝ}
    {cols rows : ℕ} {p : ℕ × ℕ} :
    p ∈ emittedPositions aoi minx miny cell cols rows ↔
      p.1 < cols ∧ p.2 < rows ∧
        (latticeSquare minx miny cell p.1 p.2 ∩ aoi).Nonempty := by
  unfold emittedPositions
  simp only [List.mem_flatMap, List.mem_filterMap, List.mem_range]
  constructor
  · rintro ⟨i, hi, j, hj, hopt⟩
    by_cases h : ¬ Disjoint aoi (latticeSquare minx miny cell i j) ∧
        (latticeSquare minx miny cell i j ∩ aoi).Nonempty
    · rw [if_pos h] at hopt
      obtain rfl : (i, j) = p := Option.some_injective _ hopt
      exact ⟨hi, hj, h.2⟩
    · rw [if_neg h] at hopt
      exact absurd hopt (Option.noConfusion)
  · rintro ⟨h1, h2, h3⟩
    refine ⟨p.1, h1, p.2, h2, ?_⟩
    rw [if_pos ⟨(not_disjoint_iff_clip_nonempty _ _).mpr h3, h3⟩]

/-- The loop output is exactly the clip of each emitted lattice position, in
iteration order. -/
lemma gridCells_eq_map (aoi : Set Pt) (minx miny cell : ℝ) (cols rows : ℕ) :
    gridCells aoi minx miny cell cols rows =
      (emittedPositions aoi minx miny cell cols rows).map
        (fun p => latticeSquare minx miny cell p.1 p.2 ∩ aoi) := by
  unfold gridCells emittedPositions
  rw [List.map_flatMap]
  refine List.flatMap_congr ?_
  intro i _
  rw [List.map_filterMap]
  refine List.filterMap_congr ?_
  intro j _
  by_cases h : ¬ Disjoint aoi (latticeSquare minx miny cell i j) ∧
      (latticeSquare minx miny cell i j ∩ aoi).Nonempty
  · rw [if_pos h, if_pos h.1, if_pos h.2]
    rfl
  · rw [if_neg h]
    rcases Classical.em (¬ Disjoint aoi (latticeSquare minx miny cell i j)) with h1 | h1
    · have h2 : ¬ (latticeSquare minx miny cell i j ∩ aoi).Nonempty := by
        intro hn; exact h ⟨h1, hn⟩
      rw [if_pos h1, if_neg h2]
      rfl
    · rw [if_neg h1]
      rfl


/-- The emitted positions are strictly increasing in the lexicographic
(column-major, row-minor) order. -/
lemma emittedPositions_pairwise (aoi : Set Pt) (minx miny cell : ℝ)
    (cols rows : ℕ) :
    (emittedPositions aoi minx miny cell cols rows).Pairwise posLt := by
  unfold emittedPositions
  rw [List.pairwise_flatMap]
  constructor
  · intro i _
    rw [List.pairwise_filterMap]
    refine ((List.pairwise_lt_range rows).imp ?_)
    intro j j' hjj p hp q hq
    simp only [Option.mem_def] at hp hq
    split_ifs at hp hq with h1 h2
    · obtain rfl : (i, j) = p := Option.some_injective _ hp
      obtain rfl : (i, j') = q := Option.some_injective _ hq
      exact Or.inr ⟨rfl, hjj⟩
  · refine ((List.pairwise_lt_range cols).imp ?_)
    intro i i' hii p hp q hq
    rw [List.mem_filterMap] at hp hq
    obtain ⟨j, _, hpj⟩ := hp
    obtain ⟨j', _, hqj⟩ := hq
    split_ifs at hpj hqj
    · obtain rfl : (i, j) = p := Option.some_injective _ hpj
      obtain rfl : (i', j') = q := Option.some_injective _ hqj
      exact Or.inl hii

lemma emittedPositions_nodup (aoi : Set Pt) (minx miny cell : ℝ)
    (cols rows : ℕ) :
    (emittedPositions aoi minx miny cell cols rows).Nodup := by
  refine (emittedPositions_pairwise aoi minx miny cell cols rows).imp ?_
  intro p q hpq
  rcases hpq with h | ⟨h1, h2⟩
  · intro he; rw [he] at h; exact lt_irrefl _ h
  · intro he; rw [he] at h2; exact lt_irrefl _ h2


lemma box_nonempty {x0 y0 x1 y1 : ℝ} (hx : x0 ≤ x1) (hy : y0 ≤ y1) :
    (box x0 y0 x1 y1).Nonempty :=
  (Set.nonempty_Icc.mpr hx).prod (Set.nonempty_Icc.mpr hy)

lemma fst_image_box {x0 y0 x1 y1 : ℝ} (hy : y0 ≤ y1) :
    Prod.fst '' box x0 y0 x1 y1 = Set.Icc x0 x1 :=
  Set.fst_image_prod _ (Set.nonempty_Icc.mpr hy)

lemma snd_image_box {x0 y0 x1 y1 : ℝ} (hx : x0 ≤ x1) :
    Prod.snd '' box x0 y0 x1 y1 = Set.Icc y0 y1 :=
  Set.snd_image_prod (Set.nonempty_Icc.mpr hx) _

lemma total_bounds_box {x0 y0 x1 y1 : ℝ} (hx : x0 ≤ x1) (hy : y0 ≤ y1) :
    total_bounds (box x0 y0 x1 y1) = Bounds.mk x0 y0 x1 y1 := by
  unfold total_bounds
  rw [fst_image_box hy, snd_image_box hx, csInf_Icc hx, csInf_Icc hy,
    csSup_Icc hx, csSup_Icc hy]

lemma ceil_eval {x : ℝ} {n : ℤ} (h1 : (n : ℝ) - 1 < x) (h2 : x ≤ (n : ℝ)) :
    ⌈x⌉ = n := by
  rw [Int.ceil_eq_iff]
  exact ⟨by linarith, h2⟩

lemma unary_union_nil : unary_union [] = (∅ : Set Pt) := rfl

lemma unary_union_single (s : Set Pt) : unary_union [s] = s := by
  simp [unary_union]

lemma unary_union_pair (s t : Set Pt) : unary_union [s, t] = s ∪ t := by
  simp [unary_union]

/-- C7: for every accepted input and every geometry context — in particular
contexts whose back-projection is not inverse to the forward projection —
the second component of the result of `make_grid_exact_clipped` is the
geographic union of the inputs itself, not a projected-and-back copy. -/
theorem merged_region_is_input_union (ctx : GeoContext)
    (polys : List (Set Pt)) (cell : ℝ) (res : List (Set Pt) × Set Pt)
    (hres : make_grid_exact_clipped ctx polys cell = .ok res) :
    res.2 = unary_union polys := by
  obtain ⟨c, hc, hcell, _⟩ := make_grid_ok_inv ctx polys cell res hres
  rw [make_grid_ok ctx polys cell c hc hcell] at hres
  have := Except.ok.inj hres
  rw [← this]

/-- C3 (amended): every cell returned by `make_grid_exact_clipped` is a
non-empty point set — the `is_empty` check filters strictly empty
intersections — but, unlike the claim, a returned cell may well have zero
area (see the counterexample `grid_zero_area_cell_counterexample`): the
`is_empty` check does not exclude intersections that collapse to a
boundary segment or point. -/
theorem grid_cells_nonempty (ctx : GeoContext) (polys : List (Set Pt))
    (cell : ℝ) (res : List (Set Pt) × Set Pt)
    (hres : make_grid_exact_clipped ctx polys cell = .ok res) :
    ∀ g ∈ res.1, g.Nonempty := by
  obtain ⟨c, hc, hcell, _⟩ := make_grid_ok_inv ctx polys cell res hres
  rw [make_grid_ok ctx polys cell c hc hcell] at hres
  obtain rfl := (Except.ok.inj hres).symm
  intro g hg
  rw [List.mem_map] at hg
  obtain ⟨g0, hg0, rfl⟩ := hg
  rw [mem_gridCells] at hg0
  obtain ⟨i, _, j, _, hne, rfl⟩ := hg0
  exact hne.image _

lemma ioo_clash {a cell x : ℝ} {i k : ℕ} (hcell : 0 < cell) (hik : i < k)
    (h1 : x < a + i * cell + cell) (h2 : a + k * cell < x) : False := by
  have hik1 : ((i : ℝ) + 1) ≤ (k : ℝ) := by exact_mod_cast hik
  have hm := mul_le_mul_of_nonneg_right hik1 hcell.le
  nlinarith

/-- C8: the clipped cells produced at two distinct lattice positions
`(i, j) ≠ (k, l)` are interior-disjoint in the planar CRS: the clip of a
lattice square is contained in that square, and the open interiors of two
distinct lattice squares of the grid are disjoint.  This covers in
particular any two cells emitted by `make_grid_exact_clipped`, whose planar
form at position `(i, j)` is `latticeSquare … i j ∩ aoi`
(see `gridCells_eq_map` and `mem_gridCells`). -/
theorem grid_cells_interior_disjoint (minx miny cell : ℝ) (M : Set Pt)
    (i j k l : ℕ) (hcell : 0 < cell) (hne : (i, j) ≠ (k, l)) :
    interior (latticeSquare minx miny cell i j ∩ M) ∩
      interior (latticeSquare minx miny cell k l ∩ M) = ∅ := by
  have hsub : ∀ a b : ℕ, interior (latticeSquare minx miny cell a b ∩ M) ⊆
      Set.Ioo (minx + a * cell) (minx + a * cell + cell) ×ˢ
        Set.Ioo (miny + b * cell) (miny + b * cell + cell) := by
    intro a b
    refine (interior_mono Set.inter_subset_left).trans ?_
    rw [latticeSquare, box, interior_prod_eq, interior_Icc, interior_Icc]
  rw [Set.eq_empty_iff_forall_not_mem]
  rintro p ⟨hp1, hp2⟩
  obtain ⟨hx1, hy1⟩ := hsub i j hp1
  obtain ⟨hx2, hy2⟩ := hsub k l hp2
  have hcase : i ≠ k ∨ j ≠ l := by
    by_contra hcon
    push_neg at hcon
    exact hne (by rw [hcon.1, hcon.2])
  rcases hcase with h | h
  · rcases lt_or_gt_of_ne h with hik | hik
    · exact ioo_clash hcell hik hx1.2 hx2.1
    · exact ioo_clash hcell hik hx2.2 hx1.1
  · rcases lt_or_gt_of_ne h with hjl | hjl
    · exact ioo_clash hcell hjl hy1.2 hy2.1
    · exact ioo_clash hcell hjl hy2.2 hy1.1

/-- Witness for `grid_cells_interior_disjoint`: the clips of the adjacent
lattice positions (0,0) and (1,0) of a unit grid at the origin have
disjoint interiors. -/
theorem grid_cells_interior_disjoint_witness :
    interior (latticeSquare 0 0 1 0 0 ∩ Set.univ) ∩
      interior (latticeSquare 0 0 1 1 0 ∩ Set.univ) = ∅ :=
  grid_cells_interior_disjoint 0 0 1 Set.univ 0 0 1 0 (by norm_num) (by decide)

/-- C6: on every accepted input, the cell sequence returned by
`make_grid_exact_clipped` is the image, in iteration order, of the list of
emitted lattice positions; that list is strictly increasing in the
column-major / row-minor lexicographic order (all `j` for a given `i`
before `i` advances), has no duplicates (each lattice position contributes
at most one output record, which may be a multi-part set), its positions
lie in `[0, cols) × [0, rows)`, and the lattice square at position `(i, j)`
is `[minx + i·cell, minx + (i+1)·cell] × [miny + j·cell, miny + (j+1)·cell]`. -/
theorem grid_output_ordered (ctx : GeoContext) (polys : List (Set Pt))
    (cell : ℝ) (c : Pt) (res : List (Set Pt) × Set Pt) (M : Set Pt)
    (cols rows : ℕ)
    (hres : make_grid_exact_clipped ctx polys cell = .ok res)
    (hc : ctx.centroid (unary_union polys) = some c)
    (hM : M = merged_utm ctx polys c)
    (hcols : cols = gridCols M cell) (hrows : rows = gridRows M cell) :
    res.1 = (emittedPositions M (total_bounds M).minx (total_bounds M).miny
          cell cols rows).map
        (fun p => ctx.unproj (utm_crs_for_lonlat c.1 c.2) ''
          (latticeSquare (total_bounds M).minx (total_bounds M).miny cell
            p.1 p.2 ∩ M)) ∧
      (emittedPositions M (total_bounds M).minx (total_bounds M).miny cell
        cols rows).Pairwise posLt ∧
      (emittedPositions M (total_bounds M).minx (total_bounds M).miny cell
        cols rows).Nodup ∧
      (∀ p ∈ emittedPositions M (total_bounds M).minx (total_bounds M).miny
          cell cols rows, p.1 < cols ∧ p.2 < rows) ∧
      ∀ i j : ℕ, latticeSquare (total_bounds M).minx (total_bounds M).miny
          cell i j =
        box ((total_bounds M).minx + i * cell) ((total_bounds M).miny + j * cell)
          ((total_bounds M).minx + (i + 1) * cell)
          ((total_bounds M).miny + (j + 1) * cell) := by
  obtain ⟨c2, hc2, hcell, _⟩ := make_grid_ok_inv ctx polys cell res hres
  rw [hc] at hc2
  obtain rfl : c = c2 := Option.some_injective _ hc2
  subst hM hcols hrows
  rw [make_grid_ok ctx polys cell c hc hcell] at hres
  obtain rfl := (Except.ok.inj hres).symm
  refine ⟨?_, emittedPositions_pairwise _ _ _ _ _ _,
    emittedPositions_nodup _ _ _ _ _ _,
    fun p hp => ⟨(mem_emittedPositions.mp hp).1, (mem_emittedPositions.mp hp).2.1⟩, ?_⟩
  · rw [gridCells_eq_map, List.map_map]
    rfl
  · intro i j
    unfold latticeSquare
    have e1 : (total_bounds (merged_utm ctx polys c)).minx + (i : ℝ) * cell + cell =
        (total_bounds (merged_utm ctx polys c)).minx + ((i : ℕ) + 1 : ℕ) * cell := by
      push_cast
      ring
    have e2 : (total_bounds (merged_utm ctx polys c)).miny + (j : ℝ) * cell + cell =
        (total_bounds (merged_utm ctx polys c)).miny + ((j : ℕ) + 1 : ℕ) * cell := by
      push_cast
      ring
    rw [e1, e2]
    push_cast
    rfl

/-- C4 (amended): whenever the input polygon sequence is empty or its union
is an empty geometry, `make_grid_exact_clipped` fails and produces no grid —
but not with a typed `EmptyInputError`, which the code does not define: the
failure is the untyped library exception raised when the NaN coordinate of
the empty union's `POINT EMPTY` centroid reaches `int()`. -/
theorem grid_empty_input_fails (ctx : GeoContext) (polys : List (Set Pt))
    (cell : ℝ) (h : unary_union polys = ∅) :
    make_grid_exact_clipped ctx polys cell = .error .floatIntError := by
  have hc : ctx.centroid (unary_union polys) = none := by
    rw [h]
    exact ctx.centroid_empty
  simp [make_grid_exact_clipped, hc]

/-- Witness for `grid_empty_input_fails`: the empty input list. -/
theorem grid_empty_input_fails_witness :
    make_grid_exact_clipped ctx0 [] 100 = .error .floatIntError :=
  grid_empty_input_fails ctx0 [] 100 rfl

/-- C4 (counterexample): on the empty input list the call fails with the
untyped NaN-conversion library error — the model's only error — and not
with a typed `EmptyInputError`: no such error class exists in the source,
as recorded by the second conjunct (`PyErr` has the library error as its
only inhabitant). -/
theorem grid_empty_input_untyped_error :
    make_grid_exact_clipped ctx0 [] 100 = .error .floatIntError ∧
      ∀ e : PyErr, e = .floatIntError := by
  constructor
  · have hc : ctx0.centroid (unary_union []) = none := by
      rw [unary_union_nil]
      exact ctx0.centroid_empty
    simp [make_grid_exact_clipped, hc]
  · intro e
    cases e
    rfl

lemma ctx0_centroid_eq (s : Set Pt) (hs : s.Nonempty) :
    ctx0.centroid s = some (0, 0) := by
  simp [ctx0, hs]

lemma ctx0_proj_image (e : ℤ) (s : Set Pt) : ctx0.proj e '' s = s := by
  simp [ctx0]

lemma ctx0_unproj_image (e : ℤ) (s : Set Pt) : ctx0.unproj e '' s = s := by
  simp [ctx0]

lemma bddBelow_fst_box (x0 y0 x1 y1 : ℝ) :
    BddBelow (Prod.fst '' box x0 y0 x1 y1) :=
  BddBelow.mono (Set.fst_image_prod_subset _ _) bddBelow_Icc

lemma bddAbove_fst_box (x0 y0 x1 y1 : ℝ) :
    BddAbove (Prod.fst '' box x0 y0 x1 y1) :=
  BddAbove.mono (Set.fst_image_prod_subset _ _) bddAbove_Icc

lemma bddBelow_snd_box (x0 y0 x1 y1 : ℝ) :
    BddBelow (Prod.snd '' box x0 y0 x1 y1) :=
  BddBelow.mono (Set.snd_image_prod_subset _ _) bddBelow_Icc

lemma bddAbove_snd_box (x0 y0 x1 y1 : ℝ) :
    BddAbove (Prod.snd '' box x0 y0 x1 y1) :=
  BddAbove.mono (Set.snd_image_prod_subset _ _) bddAbove_Icc

lemma bounds_len_nonneg {M : Set Pt} (hne : M.Nonempty)
    (hbb1 : BddBelow (Prod.fst '' M)) (hba1 : BddAbove (Prod.fst '' M))
    (hbb2 : BddBelow (Prod.snd '' M)) (hba2 : BddAbove (Prod.snd '' M)) :
    (total_bounds M).minx ≤ (total_bounds M).maxx ∧
      (total_bounds M).miny ≤ (total_bounds M).maxy :=
  ⟨csInf_le_csSup hbb1 hba1 (hne.image _), csInf_le_csSup hbb2 hba2 (hne.image _)⟩

lemma gridCells_cols_zero (M : Set Pt) (minx miny cell : ℝ) (rows : ℕ) :
    gridCells M minx miny cell 0 rows = [] := by
  simp [gridCells]

/-- With a negative cell size both ceil-derived dimensions are non-positive
and the clipping loop runs zero times: the call returns normally with an
empty cell list. -/
lemma grid_neg_result (ctx : GeoContext) (polys : List (Set Pt)) (cell : ℝ)
    (c : Pt) (hc : ctx.centroid (unary_union polys) = some c)
    (hne : (unary_union polys).Nonempty)
    (hbb1 : BddBelow (Prod.fst '' merged_utm ctx polys c))
    (hba1 : BddAbove (Prod.fst '' merged_utm ctx polys c))
    (hbb2 : BddBelow (Prod.snd '' merged_utm ctx polys c))
    (hba2 : BddAbove (Prod.snd '' merged_utm ctx polys c))
    (hcell : cell < 0) :
    ⌈((total_bounds (merged_utm ctx polys c)).maxx -
        (total_bounds (merged_utm ctx polys c)).minx) / cell⌉ ≤ 0 ∧
      ⌈((total_bounds (merged_utm ctx polys c)).maxy -
          (total_bounds (merged_utm ctx polys c)).miny) / cell⌉ ≤ 0 ∧
      make_grid_exact_clipped ctx polys cell = .ok ([], unary_union polys) := by
  have hMne : (merged_utm ctx polys c).Nonempty := hne.image _
  obtain ⟨hd1, hd2⟩ := bounds_len_nonneg hMne hbb1 hba1 hbb2 hba2
  have hce1 : ⌈((total_bounds (merged_utm ctx polys c)).maxx -
      (total_bounds (merged_utm ctx polys c)).minx) / cell⌉ ≤ 0 := by
    rw [Int.ceil_le]
    push_cast
    exact div_nonpos_of_nonneg_of_nonpos (by linarith) hcell.le
  have hce2 : ⌈((total_bounds (merged_utm ctx polys c)).maxy -
      (total_bounds (merged_utm ctx polys c)).miny) / cell⌉ ≤ 0 := by
    rw [Int.ceil_le]
    push_cast
    exact div_nonpos_of_nonneg_of_nonpos (by linarith) hcell.le
  refine ⟨hce1, hce2, ?_⟩
  rw [make_grid_ok ctx polys cell c hc (ne_of_lt hcell)]
  have hcols : gridCols (merged_utm ctx polys c) cell = 0 := by
    unfold gridCols
    omega
  rw [hcols, gridCells_cols_zero]
  rfl

/-- C10: for a non-empty (and bounded, as every shapely geometry is) merged
input and any strictly negative cell size, `make_grid_exact_clipped` raises
no error: both ceil-derived grid dimensions are non-positive, the lattice
loop body never runs, and the call returns the empty cell sequence paired
with the merged region. -/
theorem grid_negative_cell_empty (ctx : GeoContext) (polys : List (Set Pt))
    (cell : ℝ) (c : Pt) (hc : ctx.centroid (unary_union polys) = some c)
    (hne : (unary_union polys).Nonempty)
    (hbb1 : BddBelow (Prod.fst '' merged_utm ctx polys c))
    (hba1 : BddAbove (Prod.fst '' merged_utm ctx polys c))
    (hbb2 : BddBelow (Prod.snd '' merged_utm ctx polys c))
    (hba2 : BddAbove (Prod.snd '' merged_utm ctx polys c))
    (hcell : cell < 0) :
    ⌈((total_bounds (merged_utm ctx polys c)).maxx -
        (total_bounds (merged_utm ctx polys c)).minx) / cell⌉ ≤ 0 ∧
      ⌈((total_bounds (merged_utm ctx polys c)).maxy -
          (total_bounds (merged_utm ctx polys c)).miny) / cell⌉ ≤ 0 ∧
      make_grid_exact_clipped ctx polys cell = .ok ([], unary_union polys) :=
  grid_neg_result ctx polys cell c hc hne hbb1 hba1 hbb2 hba2 hcell

/-- C5 (amended): the code performs no validation of `cell_size_m` and
defines no `InvalidInputError`.  For every strictly negative cell size the
call succeeds with an empty cell sequence (no failure at all, contrary to
the claim); for cell size exactly 0 it fails, but with the untyped library
error raised by `math.ceil` on the infinite or NaN quotient. -/
theorem grid_invalid_cell_behaviour (ctx : GeoContext)
    (polys : List (Set Pt)) (c : Pt)
    (hc : ctx.centroid (unary_union polys) = some c)
    (hne : (unary_union polys).Nonempty)
    (hbb1 : BddBelow (Prod.fst '' merged_utm ctx polys c))
    (hba1 : BddAbove (Prod.fst '' merged_utm ctx polys c))
    (hbb2 : BddBelow (Prod.snd '' merged_utm ctx polys c))
    (hba2 : BddAbove (Prod.snd '' merged_utm ctx polys c)) :
    (∀ cell : ℝ, cell < 0 →
        make_grid_exact_clipped ctx polys cell = .ok ([], unary_union polys)) ∧
      make_grid_exact_clipped ctx polys 0 = .error .floatIntError := by
  constructor
  · intro cell hcell
    exact (grid_neg_result ctx polys cell c hc hne hbb1 hba1 hbb2 hba2 hcell).2.2
  · simp [make_grid_exact_clipped, hc]

lemma unit_box_nonempty : (unary_union [box 0 0 10 10]).Nonempty := by
  rw [unary_union_single]
  exact box_nonempty (by norm_num) (by norm_num)

lemma unit_box_centroid :
    ctx0.centroid (unary_union [box 0 0 10 10]) = some (0, 0) :=
  ctx0_centroid_eq _ unit_box_nonempty

lemma merged_utm_ctx0 (polys : List (Set Pt)) (c : Pt) :
    merged_utm ctx0 polys c = unary_union polys := by
  unfold merged_utm
  rw [ctx0_proj_image]

lemma unit_box_bdd :
    BddBelow (Prod.fst '' merged_utm ctx0 [box 0 0 10 10] (0, 0)) ∧
      BddAbove (Prod.fst '' merged_utm ctx0 [box 0 0 10 10] (0, 0)) ∧
      BddBelow (Prod.snd '' merged_utm ctx0 [box 0 0 10 10] (0, 0)) ∧
      BddAbove (Prod.snd '' merged_utm ctx0 [box 0 0 10 10] (0, 0)) := by
  rw [merged_utm_ctx0, unary_union_single]
  exact ⟨bddBelow_fst_box _ _ _ _, bddAbove_fst_box _ _ _ _,
    bddBelow_snd_box _ _ _ _, bddAbove_snd_box _ _ _ _⟩

/-- C5 (counterexample): with the square `[0,10]²` as input and the
non-positive cell size −100, `make_grid_exact_clipped` does not fail at
all — it returns normally, with an empty cell list — contradicting the
claim that every `cell_size_m ≤ 0` fails fast with `InvalidInputError`. -/
theorem grid_negative_cell_accepted :
    make_grid_exact_clipped ctx0 [box 0 0 10 10] (-100) =
      .ok ([], box 0 0 10 10) := by
  have h := (grid_neg_result ctx0 [box 0 0 10 10] (-100) (0, 0)
    unit_box_centroid unit_box_nonempty unit_box_bdd.1 unit_box_bdd.2.1
    unit_box_bdd.2.2.1 unit_box_bdd.2.2.2 (by norm_num)).2.2
  rwa [unary_union_single] at h

/-- Witness for `grid_invalid_cell_behaviour` at the square `[0,10]²`. -/
theorem grid_invalid_cell_behaviour_witness :
    (∀ cell : ℝ, cell < 0 →
        make_grid_exact_clipped ctx0 [box 0 0 10 10] cell =
          .ok ([], unary_union [box 0 0 10 10])) ∧
      make_grid_exact_clipped ctx0 [box 0 0 10 10] 0 =
        .error .floatIntError :=
  grid_invalid_cell_behaviour ctx0 [box 0 0 10 10] (0, 0)
    unit_box_centroid unit_box_nonempty unit_box_bdd.1 unit_box_bdd.2.1
    unit_box_bdd.2.2.1 unit_box_bdd.2.2.2

/-- Witness for `grid_negative_cell_empty` at the square `[0,10]²` and cell
size −100. -/
theorem grid_negative_cell_empty_witness :
    ⌈((total_bounds (merged_utm ctx0 [box 0 0 10 10] (0, 0))).maxx -
        (total_bounds (merged_utm ctx0 [box 0 0 10 10] (0, 0))).minx) /
        (-100)⌉ ≤ 0 ∧
      ⌈((total_bounds (merged_utm ctx0 [box 0 0 10 10] (0, 0))).maxy -
          (total_bounds (merged_utm ctx0 [box 0 0 10 10] (0, 0))).miny) /
          (-100)⌉ ≤ 0 ∧
      make_grid_exact_clipped ctx0 [box 0 0 10 10] (-100) =
        .ok ([], unary_union [box 0 0 10 10]) :=
  grid_negative_cell_empty ctx0 [box 0 0 10 10] (-100) (0, 0)
    unit_box_centroid unit_box_nonempty unit_box_bdd.1 unit_box_bdd.2.1
    unit_box_bdd.2.2.1 unit_box_bdd.2.2.2 (by norm_num)

lemma exists_cover_index {a x cell : ℝ} {n : ℕ} (hcell : 0 < cell)
    (h1 : a ≤ x) (h2 : x ≤ a + n * cell) (hn : 1 ≤ n) :
    ∃ i : ℕ, i < n ∧ a + i * cell ≤ x ∧ x ≤ a + i * cell + cell := by
  set t : ℝ := (x - a) / cell with ht
  have ht0 : 0 ≤ t := div_nonneg (by linarith) hcell.le
  have htn : t ≤ n := by
    rw [ht, div_le_iff₀ hcell]
    linarith
  have hfl0 : 0 ≤ ⌊t⌋ := Int.floor_nonneg.mpr ht0
  have htc : t * cell = x - a := div_mul_cancel₀ _ (ne_of_gt hcell)
  refine ⟨min ⌊t⌋.toNat (n - 1), ?_, ?_, ?_⟩
  · have h := min_le_right ⌊t⌋.toNat (n - 1)
    omega
  · have hle : ((min ⌊t⌋.toNat (n - 1) : ℕ) : ℝ) ≤ t := by
      have hmin : ((min ⌊t⌋.toNat (n - 1) : ℕ) : ℤ) ≤ ⌊t⌋ := by
        have h := min_le_left ⌊t⌋.toNat (n - 1)
        omega
      calc ((min ⌊t⌋.toNat (n - 1) : ℕ) : ℝ) ≤ ((⌊t⌋ : ℤ) : ℝ) := by
            exact_mod_cast hmin
        _ ≤ t := Int.floor_le t
    have hm := mul_le_mul_of_nonneg_right hle hcell.le
    linarith
  · have hub : t ≤ ((min ⌊t⌋.toNat (n - 1) : ℕ) : ℝ) + 1 := by
      rcases le_total (⌊t⌋.toNat) (n - 1) with hmin | hmin
      · rw [min_eq_left hmin]
        have hlt : t < ((⌊t⌋ : ℤ) : ℝ) + 1 := Int.lt_floor_add_one t
        have hcast : ((⌊t⌋.toNat : ℕ) : ℝ) = ((⌊t⌋ : ℤ) : ℝ) := by
          exact_mod_cast Int.toNat_of_nonneg hfl0
        rw [hcast]
        linarith
      · rw [min_eq_right hmin, Nat.cast_sub hn]
        push_cast
        linarith
    have hm := mul_le_mul_of_nonneg_right hub hcell.le
    have hexp : (((min ⌊t⌋.toNat (n - 1) : ℕ) : ℝ) + 1) * cell =
        ((min ⌊t⌋.toNat (n - 1) : ℕ) : ℝ) * cell + cell := by ring
    linarith

/-- Coverage of the clipping loop: when the grid frame covers the region,
the union of the emitted clips is exactly the region — clipping loses no
area and, each clip being contained in the region, adds none. -/
lemma gridCells_cover {M : Set Pt} {minx miny cell : ℝ} {cols rows : ℕ}
    (hcell : 0 < cell)
    (hbound : ∀ p ∈ M, minx ≤ p.1 ∧ p.1 ≤ minx + cols * cell ∧
      miny ≤ p.2 ∧ p.2 ≤ miny + rows * cell)
    (hcols : 1 ≤ cols) (hrows : 1 ≤ rows) :
    ⋃ g ∈ gridCells M minx miny cell cols rows, g = M := by
  apply Set.Subset.antisymm
  · refine Set.iUnion₂_subset ?_
    intro g hg
    rw [mem_gridCells] at hg
    obtain ⟨i, _, j, _, _, rfl⟩ := hg
    exact Set.inter_subset_right
  · intro p hp
    obtain ⟨h1, h2, h3, h4⟩ := hbound p hp
    obtain ⟨i, hi, hi1, hi2⟩ := exists_cover_index hcell h1 h2 hcols
    obtain ⟨j, hj, hj1, hj2⟩ := exists_cover_index hcell h3 h4 hrows
    have hmem : p ∈ latticeSquare minx miny cell i j ∩ M :=
      ⟨⟨⟨hi1, hi2⟩, hj1, hj2⟩, hp⟩
    rw [Set.mem_iUnion₂]
    refine ⟨latticeSquare minx miny cell i j ∩ M, ?_, hmem⟩
    rw [mem_gridCells]
    exact ⟨i, hi, j, hj, ⟨p, hmem⟩, rfl⟩

lemma ceil_le_cover {d cell : ℝ} (hcell : 0 < cell) (hd : 0 < d) :
    1 ≤ (⌈d / cell⌉).toNat ∧ d ≤ (((⌈d / cell⌉).toNat : ℕ) : ℝ) * cell := by
  have h1 : 0 < ⌈d / cell⌉ := by
    by_contra hcon
    push_neg at hcon
    have hcast : ((⌈d / cell⌉ : ℤ) : ℝ) ≤ 0 := by exact_mod_cast hcon
    have hle := Int.le_ceil (d / cell)
    have hq : 0 < d / cell := div_pos hd hcell
    linarith
  constructor
  · omega
  · have hnn : ((⌈d / cell⌉).toNat : ℤ) = ⌈d / cell⌉ := Int.toNat_of_nonneg h1.le
    have hcast : (((⌈d / cell⌉).toNat : ℕ) : ℝ) = ((⌈d / cell⌉ : ℤ) : ℝ) := by
      exact_mod_cast hnn
    rw [hcast]
    have hm := mul_le_mul_of_nonneg_right (Int.le_ceil (d / cell)) hcell.le
    have hca : d / cell * cell = d := div_mul_cancel₀ _ (ne_of_gt hcell)
    linarith

lemma biUnion_list_map (l : List (Set Pt)) (F G : Set Pt → Set Pt)
    (h : ∀ s ∈ l, G (F s) = s) :
    ⋃ g ∈ l.map F, G g = ⋃ g ∈ l, g := by
  ext p
  simp only [Set.mem_iUnion, List.mem_map, exists_prop]
  constructor
  · rintro ⟨g, ⟨s, hs, rfl⟩, hp⟩
    exact ⟨s, hs, by rwa [h s hs] at hp⟩
  · rintro ⟨s, hs, hp⟩
    exact ⟨F s, ⟨s, hs, rfl⟩, by rwa [h s hs]⟩

/-- C2: for every accepted input whose merged region is non-degenerate
(positive extent in both axes; bounded, as every shapely geometry is) and
every positive cell size, reprojecting the returned cells into the planar
CRS chosen internally and taking their union recovers exactly the planar
projection of the merged region: no part of the region is lost and, each
clip being contained in the region, nothing outside it is added. -/
theorem grid_coverage (ctx : GeoContext) (polys : List (Set Pt)) (cell : ℝ)
    (c : Pt) (res : List (Set Pt) × Set Pt) (M : Set Pt)
    (hres : make_grid_exact_clipped ctx polys cell = .ok res)
    (hc : ctx.centroid (unary_union polys) = some c)
    (hM : M = merged_utm ctx polys c)
    (hround : ∀ p : Pt, ctx.proj (utm_crs_for_lonlat c.1 c.2)
        (ctx.unproj (utm_crs_for_lonlat c.1 c.2) p) = p)
    (hbb1 : BddBelow (Prod.fst '' M)) (hba1 : BddAbove (Prod.fst '' M))
    (hbb2 : BddBelow (Prod.snd '' M)) (hba2 : BddAbove (Prod.snd '' M))
    (hx : (total_bounds M).minx < (total_bounds M).maxx)
    (hy : (total_bounds M).miny < (total_bounds M).maxy)
    (hcell : 0 < cell) :
    ⋃ g ∈ res.1, ctx.proj (utm_crs_for_lonlat c.1 c.2) '' g = M := by
  subst hM
  obtain ⟨c2, hc2, hcne, _⟩ := make_grid_ok_inv ctx polys cell res hres
  rw [hc] at hc2
  obtain rfl : c = c2 := Option.some_injective _ hc2
  rw [make_grid_ok ctx polys cell c hc hcne] at hres
  obtain rfl := (Except.ok.inj hres).symm
  have himg : ∀ s : Set Pt, ctx.proj (utm_crs_for_lonlat c.1 c.2) ''
      (ctx.unproj (utm_crs_for_lonlat c.1 c.2) '' s) = s := by
    intro s
    rw [← Set.image_comp]
    have hfun : ctx.proj (utm_crs_for_lonlat c.1 c.2) ∘
        ctx.unproj (utm_crs_for_lonlat c.1 c.2) = id := funext hround
    rw [hfun, Set.image_id]
  rw [biUnion_list_map _ _ _ (fun s _ => himg s)]
  obtain ⟨hcols1, hcolsc⟩ := ceil_le_cover hcell (by linarith :
    (0 : ℝ) < (total_bounds (merged_utm ctx polys c)).maxx -
      (total_bounds (merged_utm ctx polys c)).minx)
  obtain ⟨hrows1, hrowsc⟩ := ceil_le_cover hcell (by linarith :
    (0 : ℝ) < (total_bounds (merged_utm ctx polys c)).maxy -
      (total_bounds (merged_utm ctx polys c)).miny)
  refine gridCells_cover hcell ?_ hcols1 hrows1
  intro p hp
  have hp1 : (total_bounds (merged_utm ctx polys c)).minx ≤ p.1 :=
    csInf_le hbb1 (Set.mem_image_of_mem Prod.fst hp)
  have hp2 : p.1 ≤ (total_bounds (merged_utm ctx polys c)).maxx :=
    le_csSup hba1 (Set.mem_image_of_mem Prod.fst hp)
  have hp3 : (total_bounds (merged_utm ctx polys c)).miny ≤ p.2 :=
    csInf_le hbb2 (Set.mem_image_of_mem Prod.snd hp)
  have hp4 : p.2 ≤ (total_bounds (merged_utm ctx polys c)).maxy :=
    le_csSup hba2 (Set.mem_image_of_mem Prod.snd hp)
  refine ⟨hp1, ?_, hp3, ?_⟩
  · unfold gridCols
    linarith
  · unfold gridRows
    linarith

lemma gridCells_single_emit {M : Set Pt} {minx miny cell : ℝ}
    (h : (latticeSquare minx miny cell 0 0 ∩ M).Nonempty) :
    gridCells M minx miny cell 1 1 = [latticeSquare minx miny cell 0 0 ∩ M] := by
  unfold gridCells
  have hr : List.range 1 = [0] := rfl
  rw [hr]
  simp only [List.flatMap_cons, List.flatMap_nil, List.append_nil,
    List.filterMap_cons, List.filterMap_nil]
  rw [if_pos ((not_disjoint_iff_clip_nonempty _ _).mpr h), if_pos h]


lemma M0_eq : M0 = box 0 0 10 10 := by
  unfold M0
  rw [merged_utm_ctx0, unary_union_single]

lemma total_bounds_M0 : total_bounds M0 = Bounds.mk 0 0 10 10 := by
  rw [M0_eq]
  exact total_bounds_box (by norm_num) (by norm_num)

lemma gridCols_M0 : gridCols M0 100 = 1 := by
  unfold gridCols
  rw [total_bounds_M0]
  show (⌈((10 : ℝ) - 0) / 100⌉).toNat = 1
  have h : ((10 : ℝ) - 0) / 100 = 1 / 10 := by norm_num
  rw [h, show ⌈(1 / 10 : ℝ)⌉ = (1 : ℤ) from ceil_eval (by norm_num) (by norm_num)]
  rfl

lemma gridRows_M0 : gridRows M0 100 = 1 := by
  unfold gridRows
  rw [total_bounds_M0]
  show (⌈((10 : ℝ) - 0) / 100⌉).toNat = 1
  have h : ((10 : ℝ) - 0) / 100 = 1 / 10 := by norm_num
  rw [h, show ⌈(1 / 10 : ℝ)⌉ = (1 : ℤ) from ceil_eval (by norm_num) (by norm_num)]
  rfl

lemma latticeSquare_M0 : latticeSquare 0 0 100 0 0 = box 0 0 100 100 := by
  unfold latticeSquare
  norm_num

lemma make_grid_single_box :
    make_grid_exact_clipped ctx0 [box 0 0 10 10] 100 =
      .ok ([box 0 0 100 100 ∩ box 0 0 10 10], box 0 0 10 10) := by
  rw [make_grid_ok ctx0 [box 0 0 10 10] 100 (0, 0) unit_box_centroid
    (by norm_num)]
  have hM : merged_utm ctx0 [box 0 0 10 10] (0, 0) = M0 := rfl
  rw [hM, gridCols_M0, gridRows_M0, total_bounds_M0]
  show Except.ok
      ((gridCells M0 0 0 100 1 1).map
        (fun geom => ctx0.unproj (utm_crs_for_lonlat 0 0) '' geom),
        unary_union [box 0 0 10 10]) = _
  have hclip : (latticeSquare 0 0 100 0 0 ∩ M0).Nonempty := by
    rw [latticeSquare_M0, M0_eq]
    exact ⟨(0, 0), ⟨⟨le_rfl, by norm_num⟩, ⟨le_rfl, by norm_num⟩⟩,
      ⟨⟨le_rfl, by norm_num⟩, ⟨le_rfl, by norm_num⟩⟩⟩
  rw [gridCells_single_emit hclip, latticeSquare_M0, M0_eq,
    unary_union_single, List.map_cons, List.map_nil, ctx0_unproj_image]

/-- Witness for `merged_region_is_input_union` at the square `[0,10]²` with
cell size 100. -/
theorem merged_region_is_input_union_witness :
    ([box 0 0 100 100 ∩ box 0 0 10 10], box 0 0 10 10).2 =
      unary_union [box 0 0 10 10] :=
  merged_region_is_input_union ctx0 [box 0 0 10 10] 100
    ([box 0 0 100 100 ∩ box 0 0 10 10], box 0 0 10 10) make_grid_single_box

/-- Witness for `grid_cells_nonempty` at the square `[0,10]²` with cell
size 100: the single returned cell of that run is non-empty. -/
theorem grid_cells_nonempty_witness :
    Set.Nonempty (box 0 0 100 100 ∩ box 0 0 10 10) :=
  grid_cells_nonempty ctx0 [box 0 0 10 10] 100
    ([box 0 0 100 100 ∩ box 0 0 10 10], box 0 0 10 10) make_grid_single_box
    (box 0 0 100 100 ∩ box 0 0 10 10) (List.mem_singleton.mpr rfl)

/-- Witness for `grid_coverage` at the square `[0,10]²` with cell size
100. -/
theorem grid_coverage_witness :
    ⋃ g ∈ [box 0 0 100 100 ∩ box 0 0 10 10],
        ctx0.proj (utm_crs_for_lonlat 0 0) '' g = M0 := by
  refine grid_coverage ctx0 [box 0 0 10 10] 100 (0, 0)
    ([box 0 0 100 100 ∩ box 0 0 10 10], box 0 0 10 10) M0
    make_grid_single_box unit_box_centroid rfl (fun p => rfl)
    ?_ ?_ ?_ ?_ ?_ ?_ (by norm_num)
  · rw [M0_eq]; exact bddBelow_fst_box _ _ _ _
  · rw [M0_eq]; exact bddAbove_fst_box _ _ _ _
  · rw [M0_eq]; exact bddBelow_snd_box _ _ _ _
  · rw [M0_eq]; exact bddAbove_snd_box _ _ _ _
  · rw [total_bounds_M0]; norm_num
  · rw [total_bounds_M0]; norm_num

/-- Witness for `grid_output_ordered` at the square `[0,10]²` with cell
size 100. -/
theorem grid_output_ordered_witness :
    ([box 0 0 100 100 ∩ box 0 0 10 10] : List (Set Pt)) =
      (emittedPositions M0 (total_bounds M0).minx (total_bounds M0).miny 100
          (gridCols M0 100) (gridRows M0 100)).map
        (fun p => ctx0.unproj (utm_crs_for_lonlat 0 0) ''
          (latticeSquare (total_bounds M0).minx (total_bounds M0).miny 100
            p.1 p.2 ∩ M0)) ∧
      (emittedPositions M0 (total_bounds M0).minx (total_bounds M0).miny 100
        (gridCols M0 100) (gridRows M0 100)).Pairwise posLt ∧
      (emittedPositions M0 (total_bounds M0).minx (total_bounds M0).miny 100
        (gridCols M0 100) (gridRows M0 100)).Nodup ∧
      (∀ p ∈ emittedPositions M0 (total_bounds M0).minx (total_bounds M0).miny
          100 (gridCols M0 100) (gridRows M0 100),
        p.1 < gridCols M0 100 ∧ p.2 < gridRows M0 100) ∧
      ∀ i j : ℕ, latticeSquare (total_bounds M0).minx (total_bounds M0).miny
          100 i j =
        box ((total_bounds M0).minx + i * 100) ((total_bounds M0).miny + j * 100)
          ((total_bounds M0).minx + (i + 1) * 100)
          ((total_bounds M0).miny + (j + 1) * 100) :=
  grid_output_ordered ctx0 [box 0 0 10 10] 100 (0, 0)
    ([box 0 0 100 100 ∩ box 0 0 10 10], box 0 0 10 10) M0
    (gridCols M0 100) (gridRows M0 100)
    make_grid_single_box unit_box_centroid rfl rfl rfl

lemma diag_union_nonempty : (box 0 0 10 10 ∪ box 10 10 20 20).Nonempty :=
  ⟨(0, 0), Or.inl ⟨⟨le_rfl, by norm_num⟩, ⟨le_rfl, by norm_num⟩⟩⟩

lemma diag_centroid :
    ctx0.centroid (unary_union [box 0 0 10 10, box 10 10 20 20]) =
      some (0, 0) := by
  rw [unary_union_pair]
  exact ctx0_centroid_eq _ diag_union_nonempty

lemma merged_utm_diag :
    merged_utm ctx0 [box 0 0 10 10, box 10 10 20 20] (0, 0) =
      box 0 0 10 10 ∪ box 10 10 20 20 := by
  rw [merged_utm_ctx0, unary_union_pair]

lemma total_bounds_diag :
    total_bounds (box 0 0 10 10 ∪ box 10 10 20 20) = Bounds.mk 0 0 20 20 := by
  unfold total_bounds
  rw [Set.image_union, Set.image_union, fst_image_box (by norm_num : (0:ℝ) ≤ 10),
    fst_image_box (by norm_num : (10:ℝ) ≤ 20),
    snd_image_box (by norm_num : (0:ℝ) ≤ 10),
    snd_image_box (by norm_num : (10:ℝ) ≤ 20),
    Set.Icc_union_Icc_eq_Icc (by norm_num : (0:ℝ) ≤ 10) (by norm_num : (10:ℝ) ≤ 20),
    csInf_Icc (by norm_num : (0:ℝ) ≤ 20), csSup_Icc (by norm_num : (0:ℝ) ≤ 20)]

lemma gridCols_diag : gridCols (box 0 0 10 10 ∪ box 10 10 20 20) 10 = 2 := by
  unfold gridCols
  rw [total_bounds_diag]
  show (⌈((20 : ℝ) - 0) / 10⌉).toNat = 2
  have h : ((20 : ℝ) - 0) / 10 = 2 := by norm_num
  rw [h, show ⌈(2 : ℝ)⌉ = (2 : ℤ) from ceil_eval (by norm_num) (by norm_num)]
  rfl

lemma gridRows_diag : gridRows (box 0 0 10 10 ∪ box 10 10 20 20) 10 = 2 := by
  unfold gridRows
  rw [total_bounds_diag]
  show (⌈((20 : ℝ) - 0) / 10⌉).toNat = 2
  have h : ((20 : ℝ) - 0) / 10 = 2 := by norm_num
  rw [h, show ⌈(2 : ℝ)⌉ = (2 : ℤ) from ceil_eval (by norm_num) (by norm_num)]
  rfl

lemma latticeSquare_diag_01 : latticeSquare 0 0 10 0 1 = box 0 10 10 20 := by
  unfold latticeSquare
  norm_num

/-- The lattice square `(0, 1)` of the diagonal-boxes instance meets the
merged region only along zero-width boundary pieces: the top edge of the
lower-left box and the left edge of the upper-right box. -/
lemma diag_clip_subset :
    box 0 10 10 20 ∩ (box 0 0 10 10 ∪ box 10 10 20 20) ⊆
      (Set.Icc (0:ℝ) 10 ×ˢ ({10} : Set ℝ)) ∪
        (({10} : Set ℝ) ×ˢ Set.Icc (10:ℝ) 20) := by
  rintro ⟨x, y⟩ ⟨hsq, hm⟩
  obtain ⟨⟨hx0, hx1⟩, hy0, hy1⟩ := hsq
  rcases hm with ⟨⟨_, _⟩, _, hb1⟩ | ⟨⟨hb2, _⟩, _, _⟩
  · exact Or.inl ⟨⟨hx0, hx1⟩, le_antisymm hb1 hy0⟩
  · exact Or.inr ⟨le_antisymm hx1 hb2, ⟨hy0, hy1⟩⟩

lemma diag_clip_volume :
    MeasureTheory.volume
      (box 0 10 10 20 ∩ (box 0 0 10 10 ∪ box 10 10 20 20)) = 0 := by
  have h1 : MeasureTheory.volume ((Set.Icc (0:ℝ) 10) ×ˢ ({10} : Set ℝ)) = 0 := by
    rw [MeasureTheory.Measure.volume_eq_prod, MeasureTheory.Measure.prod_prod]
    simp
  have h2 : MeasureTheory.volume (({10} : Set ℝ) ×ˢ (Set.Icc (10:ℝ) 20)) = 0 := by
    rw [MeasureTheory.Measure.volume_eq_prod, MeasureTheory.Measure.prod_prod]
    simp
  exact measure_mono_null diag_clip_subset (measure_union_null h1 h2)

lemma diag_clip_nonempty :
    (latticeSquare 0 0 10 0 1 ∩ (box 0 0 10 10 ∪ box 10 10 20 20)).Nonempty := by
  rw [latticeSquare_diag_01]
  exact ⟨(0, 10), ⟨⟨le_rfl, by norm_num⟩, ⟨le_rfl, by norm_num⟩⟩,
    Or.inl ⟨⟨le_rfl, by norm_num⟩, ⟨by norm_num, le_rfl⟩⟩⟩

/-- C3 (counterexample): with the two diagonally touching squares `[0,10]²`
and `[10,20]²` as input and cell size 10, the run succeeds and returns a
cell of zero area: the lattice square `[0,10] × [10,20]` touches the merged
region only along its bottom edge and its right edge, so its clip is a
union of two segments — non-empty, hence not filtered by the `is_empty`
check, yet of zero area, contradicting the claim that no returned cell has
zero area. -/
theorem grid_zero_area_cell_counterexample :
    ∃ res : List (Set Pt) × Set Pt,
      make_grid_exact_clipped ctx0 [box 0 0 10 10, box 10 10 20 20] 10 =
        .ok res ∧
      ∃ g ∈ res.1, Set.Nonempty g ∧ MeasureTheory.volume g = 0 := by
  refine ⟨_, make_grid_ok ctx0 [box 0 0 10 10, box 10 10 20 20] 10 (0, 0)
    diag_centroid (by norm_num), ?_⟩
  simp only [merged_utm_diag, gridCols_diag, gridRows_diag, total_bounds_diag]
  refine ⟨ctx0.unproj (utm_crs_for_lonlat 0 0) ''
    (latticeSquare 0 0 10 0 1 ∩ (box 0 0 10 10 ∪ box 10 10 20 20)), ?_, ?_, ?_⟩
  · refine List.mem_map.mpr
      ⟨latticeSquare 0 0 10 0 1 ∩ (box 0 0 10 10 ∪ box 10 10 20 20), ?_, rfl⟩
    rw [mem_gridCells]
    exact ⟨0, by norm_num, 1, by norm_num, diag_clip_nonempty, rfl⟩
  · exact diag_clip_nonempty.image _
  · rw [ctx0_unproj_image, latticeSquare_diag_01]
    exact diag_clip_volume
